import Mathlib

/-!
Verification development for the chartify charting library.

Shallow embedding of the core data-shaping and styling logic of the
repository:

* `chartify/_core/style.py`   — color palette cursor (`OrderedPaletteMixin`)
* `chartify/_core/plot.py`    — `BasePlot._get_color_and_order`,
  `BasePlot._axis_format_precision`, `BasePlot._set_numeric_axis_default_format`,
  `PlotMixedTypeXY._construct_source`
* `chartify/_core/chart.py`   — `Chart.__init__` axis validation,
  `Chart._figure_to_png` resource lifecycle
* `chartify/_core/radar_chart.py` — `PlotRadar._get_thetas`, `_to_xy_coords`
* `chartify/_core/colors.py`  — `Color.linear_gradient`,
  `ColorPalette.expand_palette`, module-level registries
* `chartify/_core/options.py` — module-level `options`, `set_option`

Python cell values (categorical labels, stack labels) are modelled by `Val`
(an integer or a string); numeric data by `ℚ`; pandas data frames by lists
of rows.
-/

deriving instance DecidableEq for Except

/-- A Python scalar cell value: an int or a str.  `astype(str)` is `Val.toStr`. -/
inductive Val where
  | vInt (n : ℤ)
  | vStr (s : String)
deriving DecidableEq, Repr

/-- Python `str(v)`: the cast applied by `_construct_source` to stack and
index columns. -/
def Val.toStr : Val → Val
  | .vInt n => .vStr (toString n)
  | .vStr s => .vStr s

/-- A total comparison on cell values used to model the sorting that
`sorted(...)`, `pd.pivot_table` and `sort_index` perform (Python only ever
sorts homogeneous columns; ints are placed before strings to keep the
relation total). -/
def Val.ble : Val → Val → Bool
  | .vInt m, .vInt n => decide (m ≤ n)
  | .vInt _, .vStr _ => true
  | .vStr _, .vInt _ => false
  | .vStr s, .vStr t => decide (s ≤ t)

/-! ## Palette cursor — `style.py` `OrderedPaletteMixin` / `itertools.cycle`

A chart's `Style` holds `_color_cycle = cycle(self._colors)`.  The cycle is
modelled by the immutable color list plus a cursor counting how many colors
have been drawn; `next(cycle)` yields `colors[cursor % len(colors)]` and
advances the cursor. -/

structure PaletteState where
  colors : List String
  cursor : ℕ
deriving DecidableEq, Repr

/-- `OrderedPaletteMixin.next_color` (style.py:108-110): draw the next color
from the cycle. -/
def next_color (p : PaletteState) : String × PaletteState :=
  (p.colors.getD (p.cursor % p.colors.length) "", { p with cursor := p.cursor + 1 })

/-- `BasePalette.next_colors` (style.py:92-94): one `next_color` per value. -/
def next_colors (p : PaletteState) : List Val → List String × PaletteState
  | [] => ([], p)
  | _ :: vs =>
      let (c, p1) := next_color p
      let (cs, p2) := next_colors p1 vs
      (c :: cs, p2)

/-- Result of the color computation of `_get_color_and_order`: either a plain
list of hex colors (numeric data) or a `bokeh.transform.factor_cmap`
(categorical data), which pairs the drawn palette with the string factors and
the index of the color column. -/
inductive Colors where
  | plain (colors : List String)
  | cmap (palette : List String) (factors : List Val) (startIdx : ℕ)
deriving DecidableEq, Repr

/-- `BasePlot._get_color_and_order` (plot.py:61-107).

`colorColumn` is `None` or the list of values of `data_frame[color_column]`;
`colorOrder` is the optional user-supplied order; `categoricalColumns` is
`None` for numeric data.  Returns the colors, the color order
(`[None]` when there is no color column) and the updated palette state. -/
def get_color_and_order (p : PaletteState) (colorColumn : Option (List Val))
    (colorOrder : Option (List Val)) (categoricalColumns : Option (List String))
    (colorColumnName : String) :
    Except String ((Colors × List (Option Val)) × PaletteState) :=
  match colorColumn with
  | none =>
      let (c, p1) := next_color p
      .ok ((.plain [c], [none]), p1)
  | some colVals =>
      let order? : Except String (List Val) :=
        match colorOrder with
        | none => .ok (List.insertionSort (fun a b => Val.ble a b) colVals.dedup)
        | some co =>
            if colVals.all (fun v => co.contains v) then .ok co
            else .error "Color order must include all unique factors of variable `color_column`."
      match order? with
      | .error e => .error e
      | .ok order =>
          let (cs, p1) := next_colors p order
          match categoricalColumns with
          | none => .ok ((.plain cs, order.map some), p1)
          | some cats =>
              match cats.indexOf? colorColumnName with
              | none => .error "`color_column` must be present in the `categorical_columns`"
              | some colorIndex =>
                  .ok ((.cmap cs (order.map Val.toStr) colorIndex,
                        (order.map Val.toStr).map some), p1)

/-! ## Chart construction — `chart.py` `Chart.__init__` (lines 89-113) -/

def valid_x_axis_list : List String := ["linear", "log", "datetime", "categorical", "density"]

def valid_y_axis_list : List String := ["linear", "log", "categorical", "density"]

/-- The plot classes `BasePlot._get_plot_class` dispatches to. -/
inductive PlotClass where
  | categoricalXY
  | numericXY
  | densityXY
  | numericDensityXY
  | mixedTypeXY
deriving DecidableEq, Repr, Fintype

/-- `BasePlot._get_plot_class` (plot.py:43-59): dispatch on the axis-type
pair; the combination `('datetime', 'density')` raises
`NotImplementedError`. -/
def get_plot_class (x_axis_type y_axis_type : String) : Except String PlotClass :=
  if x_axis_type = "categorical" ∧ y_axis_type = "categorical" then
    .ok .categoricalXY
  else if x_axis_type ∉ ["categorical", "density"] ∧ y_axis_type ∉ ["categorical", "density"] then
    .ok .numericXY
  else if x_axis_type = "density" ∧ y_axis_type = "density" then
    .ok .densityXY
  else if x_axis_type = "datetime" ∧ y_axis_type = "density" then
    .error "Plot for this axis type combination not yet implemented."
  else if x_axis_type = "density" ∨ y_axis_type = "density" then
    .ok .numericDensityXY
  else
    .ok .mixedTypeXY

/-- `Chart.__init__` (chart.py:89-113): raise a descriptive `ValueError` on
an invalid axis type, record both axis types on the instance
(chart.py:101), then dispatch the plot class (chart.py:108), which raises
`NotImplementedError` for `('datetime', 'density')`.  The other constructor
steps (`Style.__init__`, `_initialize_figure`, `BaseAxes._get_axis_class`)
raise for no valid axis-type combination, so they are elided. -/
def chart_init (x_axis_type y_axis_type : String) :
    Except String ((String × String) × PlotClass) :=
  if x_axis_type ∉ valid_x_axis_list then
    .error "x_axis_type must be one of ['linear', 'log', 'datetime', 'categorical', 'density']"
  else if y_axis_type ∉ valid_y_axis_list then
    .error "y_axis_type must be one of ['linear', 'log', 'categorical', 'density']"
  else
    match get_plot_class x_axis_type y_axis_type with
    | .error e => .error e
    | .ok pc => .ok ((x_axis_type, y_axis_type), pc)

/-! ## Stacked source construction — `plot.py` `PlotMixedTypeXY._construct_source`
(lines 951-1052)

A data-frame row for this routine carries the categorical column value (for a
multi-column grouping, the tuple of values is modelled as one `Val`), the
stack column value and the numeric column value. -/

structure CRow where
  cat : Val
  stack : Val
  num : ℚ
deriving DecidableEq, Repr

/-- plot.py:972-983 — `data_frame.groupby(grouping).size()` must be at most 1
everywhere: no two rows share the same (categorical, stack) grouping. -/
def maxOneRowPerGrouping (df : List CRow) : Bool :=
  df.all (fun r =>
    (df.filter (fun r2 => r2.cat = r.cat ∧ r2.stack = r.stack)).length ≤ 1)

/-- plot.py:985-993 — `data_frame.astype({stack_column: str})`: the copy of
the frame handed to `pd.pivot_table`, with the stack column cast to `str`.
The caller's frame is not modified. -/
def astypeStack (df : List CRow) : List CRow :=
  df.map (fun r => { r with stack := r.stack.toStr })

/-- The pivoted columns: the distinct (cast) stack values, sorted as
`pd.pivot_table` sorts its columns. -/
def stackCols (df : List CRow) : List Val :=
  List.insertionSort (fun a b => Val.ble a b) ((astypeStack df).map CRow.stack).dedup

/-- The pivoted index: the distinct categorical keys, sorted as
`pd.pivot_table` sorts its index. -/
def pivotKeys (df : List CRow) : List Val :=
  List.insertionSort (fun a b => Val.ble a b) (df.map CRow.cat).dedup

/-- One pivoted row: for each stack column, the sum (`aggfunc='sum'`) of the
numeric values of the rows of that grouping; absent cells are `fillna(0)`,
which coincides with the empty sum. -/
def pivotRow (df : List CRow) (k : Val) : List ℚ :=
  (stackCols df).map (fun j =>
    (((astypeStack df).filter (fun r => r.cat = k ∧ r.stack = j)).map CRow.num).sum)

/-- plot.py:991-998 — `pd.pivot_table(data_frame.astype(type_map), ...)`. -/
def pivotRows (df : List CRow) : List (Val × List ℚ) :=
  (pivotKeys df).map (fun k => (k, pivotRow df k))

/-- plot.py:1000-1003 — `source.div(source.sum(axis=1), axis=0)`: divide each
row by its own total. -/
def normalizeRows (rows : List (Val × List ℚ)) : List (Val × List ℚ) :=
  rows.map (fun kc => (kc.1, kc.2.map (fun x => x / kc.2.sum)))

/-- The `categorical_order_by` argument: `'values'`, `'labels'`, a list of
values, or anything else (no `__len__`), which raises. -/
inductive OrderBy where
  | values
  | labels
  | byList (l : List Val)
  | invalid
deriving DecidableEq, Repr

/-- The row total used by the `'values'` sort (plot.py:1007-1026). -/
def rowTotal (kc : Val × List ℚ) : ℚ := kc.2.sum

/-- plot.py:1005-1035 — sort the pivoted rows.  `'values'` sorts by row
total, `'labels'` sorts by index label, both honouring
`categorical_order_ascending`; a list reindexes by the given labels
(labels present in the index; pandas would produce all-NА rows for absent
labels, which no plot path feeds it); anything else raises. -/
def sortSource (rows : List (Val × List ℚ)) (orderBy : OrderBy) (asc : Bool) :
    Except String (List (Val × List ℚ)) :=
  match orderBy with
  | .values =>
      .ok (List.insertionSort
        (fun a b => if asc then decide (rowTotal a ≤ rowTotal b)
                    else decide (rowTotal b ≤ rowTotal a)) rows)
  | .labels =>
      .ok (List.insertionSort
        (fun a b => if asc then Val.ble a.1 b.1 else Val.ble b.1 a.1) rows)
  | .byList l => .ok (l.filterMap (fun k => rows.find? (fun kc => kc.1 = k)))
  | .invalid => .error "Must be 'values', 'labels', or a list of values."

/-- The pivot → normalize → sort pipeline of `_construct_source`
(plot.py:972-1035), producing the keyed rows just before the index is cast to
strings. -/
def sourceRows (df : List CRow) (normalize : Bool) (orderBy : OrderBy) (asc : Bool) :
    Except String (List (Val × List ℚ)) :=
  if ¬ maxOneRowPerGrouping df then
    .error "Each categorical grouping should have at most 1 observation."
  else
    let pivoted := pivotRows df
    let pivoted := if normalize then normalizeRows pivoted else pivoted
    sortSource pivoted orderBy asc

/-- The value returned by `_construct_source`: the data of the
`ColumnDataSource` (cell rows, index dropped by `reset_index(drop=True)`),
the string-cast `factors` index, and the `stack_values` columns. -/
structure SourceResult where
  rows : List (List ℚ)
  factors : List Val
  stackValues : List Val
deriving DecidableEq, Repr

/-- `PlotMixedTypeXY._construct_source` (plot.py:951-1052).  Returns the
source triple together with the frame the caller observes after the call
(the string casts are applied to a copy inside the pivot, never to the
caller's frame). -/
def construct_source (df : List CRow) (normalize : Bool) (orderBy : OrderBy)
    (asc : Bool) : Except String (SourceResult × List CRow) :=
  match sourceRows df normalize orderBy asc with
  | .error e => .error e
  | .ok rows =>
      .ok ({ rows := rows.map (fun kc => kc.2),
             factors := rows.map (fun kc => kc.1.toStr),
             stackValues := stackCols df }, df)

/-! ## PNG export resource lifecycle — `chart.py` `Chart._figure_to_png`
(lines 427-450)

The function acquires a headless-browser process and a temporary HTML file
and releases them with plain `driver.quit()` / `fp.close()` calls (no
`try`/`finally`).  Each statement of the body is a step; a step may raise,
in which case execution stops before the step's effect.  The state tracks
which resources are currently held. -/

structure ExportState where
  driverHeld : Bool
  tmpOpen : Bool
deriving DecidableEq, Repr

/-- The statements of `_figure_to_png` in source order (chart.py:432-449). -/
inductive PngStep where
  | acquireDriver   -- 432: `driver = self._initialize_webdriver()`
  | renderHtml      -- 434: `html = file_html(...)`
  | openTmp         -- 435: `fp = tempfile.NamedTemporaryFile(...)`
  | writeTmp        -- 437: `fp.write(html)`
  | flushTmp        -- 438: `fp.flush()`
  | navigate        -- 440: `driver.get("file:///" + fp.name)`
  | runScript       -- 441: `driver.execute_script(...)`
  | screenshot      -- 442: `png = driver.get_screenshot_as_png()`
  | quitDriver      -- 443: `driver.quit()`
  | closeTmp        -- 444: `fp.close()`
  | resizeImage     -- 446-449: PIL open / resize
deriving DecidableEq, Repr

/-- Effect of a completed step on the held resources. -/
def PngStep.apply (s : ExportState) : PngStep → ExportState
  | .acquireDriver => { s with driverHeld := true }
  | .quitDriver => { s with driverHeld := false }
  | .openTmp => { s with tmpOpen := true }
  | .closeTmp => { s with tmpOpen := false }
  | _ => s

/-- The body of `_figure_to_png` as a step list. -/
def figure_to_png_steps : List PngStep :=
  [.acquireDriver, .renderHtml, .openTmp, .writeTmp, .flushTmp,
   .navigate, .runScript, .screenshot, .quitDriver, .closeTmp, .resizeImage]

/-- Run an export body.  `failAt = some i` means statement `i` raises: the
steps before it complete, the exception propagates and nothing after runs.
`failAt = none` is the non-raising path. -/
def runExport (steps : List PngStep) (failAt : Option ℕ) : ExportState :=
  match failAt with
  | none => steps.foldl PngStep.apply ⟨false, false⟩
  | some i => (steps.take i).foldl PngStep.apply ⟨false, false⟩

/-! ## Radar geometry — `radar_chart.py` `PlotRadar` (lines 91-106) -/

/-- `PlotRadar._get_thetas` (radar_chart.py:91-96):
`np.linspace(0, 2*pi, n, endpoint=False)` (i.e. `2*pi*i/n`) shifted by
`pi/2` so the first axis is at the top. -/
noncomputable def get_thetas (num_vars : ℕ) : List ℝ :=
  (List.range num_vars).map (fun i : ℕ => 2 * Real.pi * (i : ℝ) / (num_vars : ℝ) + Real.pi / 2)

/-- The per-row coordinate map of `PlotRadar._to_xy_coords`
(radar_chart.py:98-106): `((r + offset) * cos θ + center,
(r + offset) * sin θ + center)`. -/
noncomputable def to_xy_coords (r θ center offset : ℝ) : ℝ × ℝ :=
  ((r + offset) * Real.cos θ + center, (r + offset) * Real.sin θ + center)

/-! ## Color gradients and palette expansion — `colors.py` (lines 95-111,
168-189)

A color is its RGB triple (Python `colour.Color.get_rgb()` floats, modelled
by rationals). -/

structure ColorQ where
  r : ℚ
  g : ℚ
  b : ℚ
deriving DecidableEq, Repr

instance : Inhabited ColorQ := ⟨⟨0, 0, 0⟩⟩

/-- `Color.linear_gradient` (colors.py:95-111): the starting color followed
by the interpolants at `t = 1, …, n-1`, where component `j` of the color at
`t` is `s[j] + (t/(n-1)) * (f[j] - s[j])`. -/
def linear_gradient (s f : ColorQ) (n : ℕ) : List ColorQ :=
  s :: (List.range (n - 1)).map (fun t0 =>
    let t : ℚ := (t0 + 1 : ℕ)
    let d : ℚ := (n - 1 : ℕ)
    ⟨s.r + t / d * (f.r - s.r), s.g + t / d * (f.g - s.g), s.b + t / d * (f.b - s.b)⟩)

/-- The extrapolation loop of `expand_palette` (colors.py:180-183): for each
consecutive color pair and its extrapolation count, take
`colors[i].linear_gradient(colors[i+1], count + 1)[:-1]`. -/
def expandSegments : List ColorQ → List ℕ → List ColorQ
  | c1 :: c2 :: rest, cnt :: cnts =>
      (linear_gradient c1 c2 (cnt + 1)).dropLast ++ expandSegments (c2 :: rest) cnts
  | _, _ => []

/-- colors.py:174-178 — the per-segment extrapolation counts:
`[t' // (n-1)] * (n-1)` with `t' % (n-1)` of the leading entries bumped
by one. -/
def extrapolationCounts (paletteColorCount targetMinusOne : ℕ) : List ℕ :=
  (List.range (paletteColorCount - 1)).map (fun i =>
    if i < targetMinusOne % (paletteColorCount - 1) then
      targetMinusOne / (paletteColorCount - 1) + 1
    else
      targetMinusOne / (paletteColorCount - 1))

/-- `ColorPalette.expand_palette` (colors.py:168-189). -/
def expand_palette (colors : List ColorQ) (target_color_count : ℕ) : List ColorQ :=
  let palette_color_count := colors.length
  if target_color_count ≤ palette_color_count then colors
  else
    expandSegments colors (extrapolationCounts palette_color_count (target_color_count - 1))
      ++ [colors.getLastD default]

/-! ## Axis tick-format precision — `plot.py` `BasePlot._axis_format_precision`
(lines 36-41) and `_set_numeric_axis_default_format` (lines 135-169)

`precision = abs(int(np.floor(np.log10(difference)))) + 1`.  Over the
rationals `⌊log10 d⌋` is `Int.log 10 d`.  When the difference is zero,
`np.log10` yields `-inf` and `int(-inf)` raises, so the computation is
undefined: the embedding returns `none` there. -/

def zeroString (k : ℕ) : String := String.mk (List.replicate k '0')

/-- `BasePlot._axis_format_precision` (plot.py:36-41). -/
def axis_format_precision (max_value min_value : ℚ) : Option String :=
  let difference := |max_value - min_value|
  if difference = 0 then none
  else some ("0,0.[" ++ zeroString ((Int.log 10 difference).natAbs + 1) ++ "]")

/-- The tick-format computation of `_set_numeric_axis_default_format`
(plot.py:153-169): `max_value, min_value` are the plotted column's maximum
and minimum, clamped to `max(·, 0)` / `min(·, 0)` before the precision is
computed. -/
def set_numeric_axis_tick_format (max_value min_value : ℚ) : Option String :=
  axis_format_precision (max max_value 0) (min min_value 0)

/-! ## Module-level state — `options.py` (line 122), `colors.py` (line 301)

`chartify` creates one module-level `options = ChartifyOptions()` and one
module-level `color_palettes = ColorPalettes()` at import; `set_option`
mutates the former, `create_palette` the latter.  Each `Chart` carries its
own transient styling state (palette cursor, axis labels, settings dict).
A `World` is the module-level state together with the live charts. -/

structure ChartStyleState where
  palette : PaletteState
  xAxisLabel : String
  yAxisLabel : String
  settings : List (String × String)
deriving DecidableEq, Repr

structure ModuleState where
  optionValues : List (String × Val)
  palettes : List (String × List String)
deriving DecidableEq, Repr

structure World where
  module : ModuleState
  charts : List ChartStyleState
deriving DecidableEq, Repr

/-- Replace the value stored under `key` in an association list (the match
must exist, as in `self._options[option_name].value = option_value`). -/
def updateAssoc (l : List (String × Val)) (key : String) (v : Val) : List (String × Val) :=
  l.map (fun kv => if kv.1 = key then (kv.1, v) else kv)

/-- Insert-or-replace under `key` (dict assignment
`self._palettes[palette.name.lower()] = palette`). -/
def upsertAssoc (l : List (String × List String)) (key : String) (v : List String) :
    List (String × List String) :=
  if l.any (fun kv => kv.1 = key) then
    l.map (fun kv => if kv.1 = key then (kv.1, v) else kv)
  else l ++ [(key, v)]

/-- `ChartifyOptions.set_option` (options.py:65-91): mutate the module-level
options registry (`KeyError` when the option does not exist).  Named
`setOption` because the original name is reserved in Lean. -/
def setOption (w : World) (option_name : String) (option_value : Val) :
    Except String World :=
  if w.module.optionValues.any (fun kv => kv.1 = option_name) then
    .ok { w with module :=
      { w.module with optionValues := updateAssoc w.module.optionValues option_name option_value } }
  else .error "KeyError"

/-- `ColorPalettes.create_palette` (colors.py:284-298): build a palette and
register it, keyed by lower-cased name, in the module-level registry. -/
def create_palette (w : World) (colors : List String) (name : String) : World :=
  { w with module :=
    { w.module with palettes := upsertAssoc w.module.palettes name.toLower colors } }

/-- Chart-scoped styling operations: advance the palette cursor
(`next_color`), set an axis label (`axes.set_xaxis_label` /
`set_yaxis_label`), update the chart's settings dictionary
(`style.settings[...] = ...`). -/
inductive ChartOp where
  | nextColor
  | setXAxisLabel (s : String)
  | setYAxisLabel (s : String)
  | setSetting (key value : String)
deriving DecidableEq, Repr

def ChartOp.applyToChart (c : ChartStyleState) : ChartOp → ChartStyleState
  | .nextColor => { c with palette := (next_color c.palette).2 }
  | .setXAxisLabel s => { c with xAxisLabel := s }
  | .setYAxisLabel s => { c with yAxisLabel := s }
  | .setSetting k v => { c with settings := (k, v) :: c.settings.filter (fun kv => kv.1 ≠ k) }

/-- Update the `i`-th element of a list in place. -/
def updateAt {α : Type} : List α → ℕ → (α → α) → List α
  | [], _, _ => []
  | x :: xs, 0, f => f x :: xs
  | x :: xs, n + 1, f => x :: updateAt xs n f

/-- Perform a chart-scoped styling operation on chart `i` of the world. -/
def applyChartOp (w : World) (i : ℕ) (op : ChartOp) : World :=
  { w with charts := updateAt w.charts i (fun c => op.applyToChart c) }

/-- The stack total of one categorical grouping: the sum of the numeric
column over the rows of that grouping. -/
def groupTotal (df : List CRow) (k : Val) : ℚ :=
  ((df.filter (fun r => r.cat = k)).map CRow.num).sum

/-! # Theorems -/

/-- C3 (counterexample): construction does not succeed for every valid
axis-type combination.  `'datetime'` is a valid `x_axis_type` and
`'density'` a valid `y_axis_type`, so the validation of chart.py:89-101
passes, but the plot-class dispatch at chart.py:108 raises
`NotImplementedError` for exactly this pair (plot.py:53-55), so
`Chart.__init__` fails. -/
theorem chart_init_datetime_density_fails :
    "datetime" ∈ valid_x_axis_list ∧ "density" ∈ valid_y_axis_list ∧
    chart_init "datetime" "density" =
      .error "Plot for this axis type combination not yet implemented." := by
  decide

/-- C3 (amended): `Chart.__init__` raises the descriptive `ValueError`
exactly when an axis type is outside its enumeration; for every valid
combination except `('datetime', 'density')` construction succeeds and
records exactly the two axis types given; for `('datetime', 'density')`
the plot-class dispatch raises `NotImplementedError`. -/
theorem chart_init_axis_types_amended :
    ∀ x y : String,
      ((∃ pc, chart_init x y = .ok ((x, y), pc)) ↔
        x ∈ valid_x_axis_list ∧ y ∈ valid_y_axis_list ∧ ¬(x = "datetime" ∧ y = "density")) ∧
      (x ∉ valid_x_axis_list →
        chart_init x y =
          .error "x_axis_type must be one of ['linear', 'log', 'datetime', 'categorical', 'density']") ∧
      (x ∈ valid_x_axis_list → y ∉ valid_y_axis_list →
        chart_init x y =
          .error "y_axis_type must be one of ['linear', 'log', 'categorical', 'density']") ∧
      (x = "datetime" → y = "density" →
        chart_init x y =
          .error "Plot for this axis type combination not yet implemented.") := by
  intro x y
  refine ⟨⟨?_, ?_⟩, ?_, ?_, ?_⟩
  · rintro ⟨pc, hpc⟩
    by_cases hx : x ∈ valid_x_axis_list
    · by_cases hy : y ∈ valid_y_axis_list
      · refine ⟨hx, hy, ?_⟩
        rintro ⟨rfl, rfl⟩
        have h0 : chart_init "datetime" "density" =
            .error "Plot for this axis type combination not yet implemented." := by decide
        rw [h0] at hpc
        exact absurd hpc (by simp)
      · rw [chart_init, if_neg (by simpa using hx), if_pos (by simpa using hy)] at hpc
        exact absurd hpc (by simp)
    · rw [chart_init, if_pos (by simpa using hx)] at hpc
      exact absurd hpc (by simp)
  · rintro ⟨hx, hy, hnd⟩
    simp only [valid_x_axis_list, List.mem_cons, List.not_mem_nil, or_false] at hx
    simp only [valid_y_axis_list, List.mem_cons, List.not_mem_nil, or_false] at hy
    rcases hx with rfl | rfl | rfl | rfl | rfl <;>
      rcases hy with rfl | rfl | rfl | rfl <;>
      first
        | decide
        | exact absurd ⟨rfl, rfl⟩ hnd
  · intro hx
    simp [chart_init, hx]
  · intro hx hy
    simp [chart_init, hx, hy]
  · rintro rfl rfl
    decide

/-- Witness for C3 (amended): an invalid `x_axis_type` errors descriptively,
and the valid pair `('datetime', 'density')` fails with
`NotImplementedError`. -/
theorem chart_init_axis_types_amended_witness :
    chart_init "bogus" "linear" =
      .error "x_axis_type must be one of ['linear', 'log', 'datetime', 'categorical', 'density']" ∧
    chart_init "datetime" "density" =
      .error "Plot for this axis type combination not yet implemented." :=
  ⟨(chart_init_axis_types_amended "bogus" "linear").2.1 (by decide),
   (chart_init_axis_types_amended "datetime" "density").2.2.2 rfl rfl⟩

/-- C1 (counterexample): plotting is not idempotent.  With the two-color
palette below and cursor 0, a first plot call with no color column is
assigned color `#1f77b4` and advances the cursor to 1; an identical second
call is assigned the different color `#aec7e8` and leaves the chart state
(cursor 2) different from the state after one call (cursor 1). -/
theorem get_color_and_order_not_idempotent :
    get_color_and_order ⟨["#1f77b4", "#aec7e8"], 0⟩ none none none "" =
      .ok ((.plain ["#1f77b4"], [none]), ⟨["#1f77b4", "#aec7e8"], 1⟩) ∧
    get_color_and_order ⟨["#1f77b4", "#aec7e8"], 1⟩ none none none "" =
      .ok ((.plain ["#aec7e8"], [none]), ⟨["#1f77b4", "#aec7e8"], 2⟩) ∧
    (Colors.plain ["#aec7e8"] ≠ Colors.plain ["#1f77b4"] ∧
      (⟨["#1f77b4", "#aec7e8"], 2⟩ : PaletteState) ≠ ⟨["#1f77b4", "#aec7e8"], 1⟩) :=
  ⟨rfl, rfl, by decide, by decide⟩

/-- C1 (amended): the color assignment is a deterministic transformation of
the chart state whose only state effect is advancing the palette cursor:
each invocation with no color column advances the cursor by one and is
assigned the color at the old cursor position of the cycle, so a second
identical invocation is assigned the cycle's next color, not the same
one. -/
theorem get_color_and_order_advances_cursor (p : PaletteState) (h : p.colors ≠ []) :
    ∃ (c1 c2 : String) (p1 p2 : PaletteState),
      get_color_and_order p none none none "" = .ok ((.plain [c1], [none]), p1) ∧
      get_color_and_order p1 none none none "" = .ok ((.plain [c2], [none]), p2) ∧
      p1.cursor = p.cursor + 1 ∧ p2.cursor = p.cursor + 2 ∧
      p1.colors = p.colors ∧ p2.colors = p.colors ∧
      c1 = p.colors.getD (p.cursor % p.colors.length) "" ∧
      c2 = p.colors.getD ((p.cursor + 1) % p.colors.length) "" := by
  exact ⟨_, _, _, _, rfl, rfl, rfl, rfl, rfl, rfl, rfl, rfl⟩

/-- Witness for C1 (amended) at the concrete palette `["a", "b"]`, cursor 0. -/
theorem get_color_and_order_advances_cursor_witness :
    ∃ (c1 c2 : String) (p1 p2 : PaletteState),
      get_color_and_order ⟨["a", "b"], 0⟩ none none none "" = .ok ((.plain [c1], [none]), p1) ∧
      get_color_and_order p1 none none none "" = .ok ((.plain [c2], [none]), p2) ∧
      p1.cursor = 0 + 1 ∧ p2.cursor = 0 + 2 ∧
      p1.colors = ["a", "b"] ∧ p2.colors = ["a", "b"] ∧
      c1 = ["a", "b"].getD (0 % 2) "" ∧
      c2 = ["a", "b"].getD ((0 + 1) % 2) "" :=
  get_color_and_order_advances_cursor ⟨["a", "b"], 0⟩ (by decide)

/-- C2 (counterexample): if the screenshot statement
`png = driver.get_screenshot_as_png()` (the step at index 7 of
`_figure_to_png`) raises, the export ends with the headless-browser process
and the temporary HTML file still held: there is no `try`/`finally` around
`driver.quit()` and `fp.close()`. -/
theorem figure_to_png_leaks_on_error :
    (runExport figure_to_png_steps (some 7)).driverHeld = true ∧
    (runExport figure_to_png_steps (some 7)).tmpOpen = true := by
  decide

/-- C2 (amended): on the non-raising execution path `_figure_to_png`
releases the browser process and the temporary file before returning, and a
raise before the driver is acquired holds nothing; but on every path that
raises after acquisition and before the release statements (steps 1-8 for
the driver) the export ends with the browser process still held. -/
theorem figure_to_png_release_paths (i : ℕ) (h1 : 1 ≤ i) (h2 : i ≤ 8) :
    runExport figure_to_png_steps none = ⟨false, false⟩ ∧
    runExport figure_to_png_steps (some 0) = ⟨false, false⟩ ∧
    (runExport figure_to_png_steps (some i)).driverHeld = true := by
  refine ⟨by decide, by decide, ?_⟩
  interval_cases i <;> decide

/-- Witness for C2 (amended): a raise at the screenshot statement. -/
theorem figure_to_png_release_paths_witness :
    runExport figure_to_png_steps none = ⟨false, false⟩ ∧
    runExport figure_to_png_steps (some 0) = ⟨false, false⟩ ∧
    (runExport figure_to_png_steps (some 7)).driverHeld = true :=
  figure_to_png_release_paths 7 (by decide) (by decide)

/-- C8 (counterexample): not all mutable state is scoped to a single chart
object.  `chartify.options.set_option` mutates the module-level options
registry: starting from a world whose module-level state holds the default
`chart.blank_labels` option, setting that option changes the module-level
state observable by every chart. -/
theorem setOption_mutates_module_state :
    setOption ⟨⟨[("chart.blank_labels", Val.vStr "False")], []⟩, []⟩
        "chart.blank_labels" (Val.vStr "True") =
      .ok ⟨⟨[("chart.blank_labels", Val.vStr "True")], []⟩, []⟩ ∧
    (⟨[("chart.blank_labels", Val.vStr "True")], []⟩ : ModuleState) ≠
      ⟨[("chart.blank_labels", Val.vStr "False")], []⟩ :=
  ⟨rfl, by decide⟩

/-- Updating one position of a list leaves every other position unchanged. -/
theorem updateAt_get?_of_ne {α : Type} :
    ∀ (l : List α) (i j : ℕ) (f : α → α), i ≠ j → (updateAt l i f).get? j = l.get? j := by
  intro l
  induction l with
  | nil => intro i j f _; rfl
  | cons x xs ih =>
      intro i j f hij
      cases i with
      | zero =>
          cases j with
          | zero => exact absurd rfl hij
          | succ m => rfl
      | succ n =>
          cases j with
          | zero => rfl
          | succ m =>
              simpa [updateAt] using ih n m f (fun h => hij (by rw [h]))

/-- C8 (amended): chart-scoped styling state is isolated between charts —
advancing one chart's palette cursor, setting its axis labels or updating
its settings dictionary never changes the styling configuration observable
from another chart, and leaves the module-level state unchanged.  However,
not all mutable state is chart-scoped: `set_option` and `create_palette`
mutate the module-level option and palette registries (see
`setOption_mutates_module_state`). -/
theorem chart_scoped_ops_isolated (w : World) (i j : ℕ) (op : ChartOp) (h : i ≠ j) :
    (applyChartOp w i op).charts.get? j = w.charts.get? j ∧
    (applyChartOp w i op).module = w.module :=
  ⟨updateAt_get?_of_ne w.charts i j _ h, rfl⟩

/-- Witness for C8 (amended): advancing chart 0's palette cursor in a
two-chart world leaves chart 1 unchanged. -/
theorem chart_scoped_ops_isolated_witness :
    (applyChartOp ⟨⟨[], []⟩, [⟨⟨["a"], 0⟩, "", "", []⟩, ⟨⟨["b"], 0⟩, "", "", []⟩]⟩
        0 .nextColor).charts.get? 1 =
      (⟨⟨[], []⟩, [⟨⟨["a"], 0⟩, "", "", []⟩, ⟨⟨["b"], 0⟩, "", "", []⟩]⟩ : World).charts.get? 1 ∧
    (applyChartOp ⟨⟨[], []⟩, [⟨⟨["a"], 0⟩, "", "", []⟩, ⟨⟨["b"], 0⟩, "", "", []⟩]⟩
        0 .nextColor).module =
      (⟨⟨[], []⟩, [⟨⟨["a"], 0⟩, "", "", []⟩, ⟨⟨["b"], 0⟩, "", "", []⟩]⟩ : World).module :=
  chart_scoped_ops_isolated _ 0 1 .nextColor (by decide)

/-- C7: for a radar series of `n ≥ 1` rows, the `i`-th interpolated theta is
`π/2 + 2·π·i/n` (equally spaced counter-clockwise starting from the top),
and with center and offset 0 the coordinate map sends radius `r` at angle
`θ` to `(r·cos θ, r·sin θ)`. -/
theorem radar_thetas_and_xy_coords (n i : ℕ) (h1 : 1 ≤ n) (hi : i < n) :
    (get_thetas n).getD i 0 = Real.pi / 2 + 2 * Real.pi * i / n ∧
    ∀ r θ : ℝ, to_xy_coords r θ 0 0 = (r * Real.cos θ, r * Real.sin θ) := by
  constructor
  · rw [List.getD_eq_getElem?_getD, get_thetas, List.getElem?_map, List.getElem?_range hi]
    show 2 * Real.pi * (i : ℝ) / (n : ℝ) + Real.pi / 2 = _
    ring
  · intro r θ
    simp [to_xy_coords]

/-- Witness for C7 at `n = 4`, `i = 1` and radius 2 at angle π. -/
theorem radar_thetas_and_xy_coords_witness :
    (get_thetas 4).getD 1 0 = Real.pi / 2 + 2 * Real.pi * 1 / 4 ∧
    to_xy_coords 2 Real.pi 0 0 = (2 * Real.cos Real.pi, 2 * Real.sin Real.pi) :=
  ⟨by exact_mod_cast (radar_thetas_and_xy_coords 4 1 (by decide) (by decide)).1,
   (radar_thetas_and_xy_coords 4 1 (by decide) (by decide)).2 2 Real.pi⟩

/-- Drawing one color per value yields exactly one color per value. -/
theorem next_colors_length (p : PaletteState) (vs : List Val) :
    (next_colors p vs).1.length = vs.length := by
  induction vs generalizing p with
  | nil => rfl
  | cons v vs ih => simp [next_colors, ih]

/-- C4: with a color column and a supplied `color_order`, the plot raises the
descriptive `ValueError` exactly when the order misses some unique value of
the color column; when the order covers every value, no such error is raised
(shown here for numeric data, `categorical_columns = None`) and the palette
colors are assigned to the values of `color_order` pairwise in the order
given (the `i`-th drawn color to the `i`-th entry). -/
theorem get_color_and_order_checks_color_order
    (p : PaletteState) (colVals co : List Val) :
    (¬ (∀ v ∈ colVals, v ∈ co) → ∀ catCols ccName,
      get_color_and_order p (some colVals) (some co) catCols ccName =
        .error "Color order must include all unique factors of variable `color_column`.") ∧
    ((∀ v ∈ colVals, v ∈ co) →
      get_color_and_order p (some colVals) (some co) none "" =
        .ok ((.plain (next_colors p co).1, co.map some), (next_colors p co).2) ∧
      (next_colors p co).1.length = co.length) := by
  constructor
  · intro h catCols ccName
    simp [get_color_and_order, h]
  · intro h
    have hb : (colVals.all fun v => co.contains v) = true :=
      List.all_eq_true.mpr (fun v hv => List.elem_iff.mpr (h v hv))
    refine ⟨?_, next_colors_length p co⟩
    simp only [get_color_and_order]
    rw [if_pos hb]

/-- Witness for C4: palette `["a", "b"]`, color column values `[x]`,
color order `[x, y]` (a superset): colors `a`, `b` are assigned to `x`, `y`
in order, and the miss case errors for order `[y]`. -/
theorem get_color_and_order_checks_color_order_witness :
    get_color_and_order ⟨["a", "b"], 0⟩ (some [Val.vStr "x"]) (some [Val.vStr "x", Val.vStr "y"])
        none "" =
      .ok ((.plain (next_colors ⟨["a", "b"], 0⟩ [Val.vStr "x", Val.vStr "y"]).1,
            [Val.vStr "x", Val.vStr "y"].map some),
           (next_colors ⟨["a", "b"], 0⟩ [Val.vStr "x", Val.vStr "y"]).2) ∧
    (next_colors ⟨["a", "b"], 0⟩ [Val.vStr "x", Val.vStr "y"]).1.length =
      [Val.vStr "x", Val.vStr "y"].length :=
  (get_color_and_order_checks_color_order ⟨["a", "b"], 0⟩ [Val.vStr "x"]
    [Val.vStr "x", Val.vStr "y"]).2 (by decide)

/-- C5: the categorical source construction is pure with respect to its
tabular input: whenever `_construct_source` succeeds, the frame the caller
observes afterwards is exactly the frame passed in — the string casting
needed for pivoting shows up only in the pivoted column labels (all of
which are strings), never in the caller's frame. -/
theorem construct_source_preserves_caller_frame
    (df : List CRow) (normalize : Bool) (orderBy : OrderBy) (asc : Bool)
    (out : SourceResult × List CRow)
    (h : construct_source df normalize orderBy asc = .ok out) :
    out.2 = df ∧ ∀ v ∈ out.1.stackValues, ∃ s, v = Val.vStr s := by
  unfold construct_source at h
  cases hs : sourceRows df normalize orderBy asc with
  | error e => rw [hs] at h; exact absurd h (by simp)
  | ok rows =>
      rw [hs] at h
      have hout : out = ({ rows := rows.map (fun kc => kc.2),
                           factors := rows.map (fun kc => kc.1.toStr),
                           stackValues := stackCols df }, df) := by
        injection h with h'; exact h'.symm
      subst hout
      refine ⟨rfl, fun v hv => ?_⟩
      have hv' : v ∈ ((astypeStack df).map CRow.stack).dedup := by
        simpa [stackCols] using (List.mem_insertionSort _).mp hv
      have hv'' : v ∈ (astypeStack df).map CRow.stack := List.mem_dedup.mp hv'
      rcases List.mem_map.mp hv'' with ⟨r, hr, hrv⟩
      rcases List.mem_map.mp hr with ⟨r0, _, hr0⟩
      subst hr0
      cases h0 : r0.stack with
      | vInt n => exact ⟨toString n, by rw [← hrv]; simp [astypeStack, Val.toStr, h0]⟩
      | vStr s => exact ⟨s, by rw [← hrv]; simp [astypeStack, Val.toStr, h0]⟩

/-- Witness for C5 at a one-row frame whose stack value is the integer 2:
the caller's frame still holds the integer after the call, while the pivoted
column label is the string "2". -/
theorem construct_source_preserves_caller_frame_witness :
    ((⟨[[1]], [Val.vStr "a"], [Val.vStr "2"]⟩, [⟨Val.vStr "a", Val.vInt 2, 1⟩]) :
        SourceResult × List CRow).2 = [⟨Val.vStr "a", Val.vInt 2, 1⟩] :=
  (construct_source_preserves_caller_frame [⟨Val.vStr "a", Val.vInt 2, 1⟩] true .labels false
    (⟨[[1]], [Val.vStr "a"], [Val.vStr "2"]⟩, [⟨Val.vStr "a", Val.vInt 2, 1⟩])
    (by
      norm_num [construct_source, sourceRows, maxOneRowPerGrouping, pivotRows, pivotKeys,
        pivotRow, stackCols, astypeStack, normalizeRows, sortSource, Val.toStr, Val.ble,
        List.insertionSort, List.orderedInsert]
      rfl)).1

/-- Summing a pointwise sum of two functions over a list splits. -/
theorem list_sum_map_add {α : Type} (l : List α) (f g : α → ℚ) :
    (l.map (fun x => f x + g x)).sum = (l.map f).sum + (l.map g).sum := by
  induction l with
  | nil => simp
  | cons x xs ih => simp only [List.map_cons, List.sum_cons, ih]; ring

/-- Dividing every entry by `t` divides the sum by `t`. -/
theorem list_sum_map_div (l : List ℚ) (t : ℚ) :
    (l.map (fun x => x / t)).sum = l.sum / t := by
  induction l with
  | nil => simp
  | cons x xs ih => simp [ih, add_div]

/-- Over a duplicate-free column list, a row value contributes its cell
exactly once. -/
theorem sum_ite_single (S : List Val) (hS : S.Nodup) (c : Prop) [Decidable c] (v : Val) (q : ℚ) :
    (S.map (fun j => if c ∧ v = j then q else 0)).sum = if c ∧ v ∈ S then q else 0 := by
  induction S with
  | nil => simp
  | cons j S' ih =>
      rcases List.nodup_cons.mp hS with ⟨hj, hS'⟩
      rw [List.map_cons, List.sum_cons, ih hS']
      by_cases hc : c
      · by_cases hvj : v = j
        · subst hvj
          simp [hc, hj]
        · by_cases hvS : v ∈ S' <;> simp [hc, hvj, hvS]
      · simp [hc]

/-- Summing the pivoted cells of one grouping over all stack columns gives
the sum over the rows of that grouping: each row falls in exactly one
column. -/
theorem sum_over_stackCols (S : List Val) (hS : S.Nodup) (k : Val) :
    ∀ rows : List CRow, (∀ r ∈ rows, r.cat = k → r.stack ∈ S) →
      (S.map (fun j =>
        ((rows.filter (fun r => r.cat = k ∧ r.stack = j)).map CRow.num).sum)).sum
        = ((rows.filter (fun r => r.cat = k)).map CRow.num).sum := by
  intro rows
  induction rows with
  | nil => intro _; simp
  | cons r rest ih =>
      intro hmem
      have hrest := ih (fun x hx => hmem x (List.mem_cons_of_mem _ hx))
      have hstep : ∀ j : Val,
          (((r :: rest).filter (fun x => x.cat = k ∧ x.stack = j)).map CRow.num).sum
            = (if r.cat = k ∧ r.stack = j then r.num else 0)
              + ((rest.filter (fun x => x.cat = k ∧ x.stack = j)).map CRow.num).sum := by
        intro j
        by_cases h : r.cat = k ∧ r.stack = j <;> simp [List.filter_cons, h]
      calc (S.map (fun j =>
              (((r :: rest).filter (fun x => x.cat = k ∧ x.stack = j)).map CRow.num).sum)).sum
          = (S.map (fun j => (if r.cat = k ∧ r.stack = j then r.num else 0)
              + ((rest.filter (fun x => x.cat = k ∧ x.stack = j)).map CRow.num).sum)).sum := by
            exact congrArg _ (List.map_congr_left (fun j _ => hstep j))
        _ = (S.map (fun j => if r.cat = k ∧ r.stack = j then r.num else 0)).sum
              + (S.map (fun j =>
                  ((rest.filter (fun x => x.cat = k ∧ x.stack = j)).map CRow.num).sum)).sum :=
            list_sum_map_add S _ _
        _ = (if r.cat = k ∧ r.stack ∈ S then r.num else 0)
              + ((rest.filter (fun x => x.cat = k)).map CRow.num).sum := by
            rw [sum_ite_single S hS, hrest]
        _ = (((r :: rest).filter (fun x => x.cat = k)).map CRow.num).sum := by
            by_cases h : r.cat = k
            · have : r.stack ∈ S := hmem r (List.mem_cons_self _ _) h
              simp [List.filter_cons, h, this]
            · simp [List.filter_cons, h]

/-- The stack-column string cast changes neither the grouping nor the
numeric values, so group totals are unchanged. -/
theorem groupTotal_astype (df : List CRow) (k : Val) :
    (((astypeStack df).filter (fun r => r.cat = k)).map CRow.num).sum = groupTotal df k := by
  induction df with
  | nil => rfl
  | cons r rest ih =>
      by_cases h : r.cat = k <;>
        simp [astypeStack, groupTotal, List.filter_cons, h] at ih ⊢ <;>
        simp [ih]

/-- A pivoted row sums to the stack total of its grouping. -/
theorem pivotRow_sum (df : List CRow) (k : Val) : (pivotRow df k).sum = groupTotal df k := by
  have hS : (stackCols df).Nodup :=
    (List.perm_insertionSort _ _).nodup_iff.mpr (List.nodup_dedup _)
  have hmem : ∀ r ∈ astypeStack df, r.cat = k → r.stack ∈ stackCols df := by
    intro r hr _
    exact (List.mem_insertionSort _).mpr (List.mem_dedup.mpr (List.mem_map_of_mem _ hr))
  rw [pivotRow, sum_over_stackCols (stackCols df) hS k (astypeStack df) hmem,
    groupTotal_astype]

/-- C6: with `normalize=True`, the stacked source construction divides each
pivoted row by that row's total, so for every input frame accepted by the
at-most-one-observation check and every grouping whose stack total is
nonzero, the normalized stack values of that grouping sum to exactly 1. -/
theorem construct_source_normalized_rows_sum_to_one
    (df : List CRow) (orderBy : OrderBy) (asc : Bool) (rows : List (Val × List ℚ))
    (h : sourceRows df true orderBy asc = .ok rows) :
    ∀ k cs, (k, cs) ∈ rows → groupTotal df k ≠ 0 → cs.sum = 1 := by
  intro k cs hmem hnz
  rw [sourceRows] at h
  by_cases hchk : maxOneRowPerGrouping df
  case neg => simp [hchk] at h
  rw [if_neg (by simp [hchk])] at h
  simp only [if_pos rfl] at h
  have hmem' : (k, cs) ∈ normalizeRows (pivotRows df) := by
    cases orderBy with
    | values =>
        simp only [sortSource] at h
        injection h with h'
        rw [← h'] at hmem
        exact (List.mem_insertionSort _).mp hmem
    | labels =>
        simp only [sortSource] at h
        injection h with h'
        rw [← h'] at hmem
        exact (List.mem_insertionSort _).mp hmem
    | byList l =>
        simp only [sortSource] at h
        injection h with h'
        rw [← h'] at hmem
        rcases List.mem_filterMap.mp hmem with ⟨x, _, hfind⟩
        exact List.mem_of_find?_eq_some hfind
    | invalid => exact absurd h (by simp [sortSource])
  rcases List.mem_map.mp hmem' with ⟨kc, hkc, heq⟩
  rcases List.mem_map.mp hkc with ⟨key, _, hkey⟩
  have hk : kc.1 = k := congrArg Prod.fst heq
  have hcs : kc.2.map (fun x => x / kc.2.sum) = cs := congrArg Prod.snd heq
  have hkc2 : kc.2 = pivotRow df key := by rw [← hkey]
  have hkeyk : key = k := by rw [← hk, ← hkey]
  rw [← hcs, list_sum_map_div, hkc2, hkeyk, pivotRow_sum]
  exact div_self hnz

/-- Witness for C6: the frame with rows (a, s, 1) and (a, t, 3) normalizes
grouping `a` to the stack values 1/4 and 3/4, which sum to 1. -/
theorem construct_source_normalized_rows_sum_to_one_witness : List.sum [(1:ℚ)/4, 3/4] = 1 :=
  construct_source_normalized_rows_sum_to_one
    [⟨Val.vStr "a", Val.vStr "s", 1⟩, ⟨Val.vStr "a", Val.vStr "t", 3⟩] .labels false
    [(Val.vStr "a", [1/4, 3/4])]
    (by
      simp +decide [sourceRows, maxOneRowPerGrouping, pivotRows, pivotKeys,
        pivotRow, stackCols, astypeStack, normalizeRows, sortSource, Val.toStr, Val.ble,
        List.insertionSort, List.orderedInsert]
      norm_num)
    (Val.vStr "a") [1/4, 3/4] (by simp)
    (by norm_num [groupTotal])

/-- `linear_gradient` produces the start color plus `n - 1` interpolants. -/
theorem linear_gradient_length (s f : ColorQ) (n : ℕ) :
    (linear_gradient s f n).length = n - 1 + 1 := by
  simp [linear_gradient]

/-- The extrapolation loop yields exactly the per-segment counts in total. -/
theorem expandSegments_length :
    ∀ (cnts : List ℕ) (c1 : ColorQ) (cs : List ColorQ), cs.length = cnts.length →
      (expandSegments (c1 :: cs) cnts).length = cnts.sum := by
  intro cnts
  induction cnts with
  | nil =>
      intro c1 cs h
      rw [List.length_eq_zero.mp h]
      rfl
  | cons cnt cnts' ih =>
      intro c1 cs h
      obtain ⟨c2, cs', rfl⟩ : ∃ c2 cs', cs = c2 :: cs' := by
        cases cs with
        | nil => simp at h
        | cons a l => exact ⟨a, l, rfl⟩
      have hlen : cs'.length = cnts'.length := by simpa using h
      show ((linear_gradient c1 c2 (cnt + 1)).dropLast ++ expandSegments (c2 :: cs') cnts').length
        = (cnt :: cnts').sum
      rw [List.length_append, List.length_dropLast, linear_gradient_length, ih c2 cs' hlen]
      simp

/-- With a positive first count, the extrapolated palette starts with the
original first color (the gradient head with the last element dropped). -/
theorem expandSegments_head (c1 c2 : ColorQ) (cs : List ColorQ) (cnt : ℕ) (cnts : List ℕ)
    (h : 1 ≤ cnt) :
    ∃ l, expandSegments (c1 :: c2 :: cs) (cnt :: cnts) = c1 :: l := by
  show ∃ l, (linear_gradient c1 c2 (cnt + 1)).dropLast ++ expandSegments (c2 :: cs) cnts = c1 :: l
  have htail : ((List.range (cnt + 1 - 1)).map (fun t0 =>
      let t : ℚ := (t0 + 1 : ℕ)
      let d : ℚ := (cnt + 1 - 1 : ℕ)
      (⟨c1.r + t / d * (c2.r - c1.r), c1.g + t / d * (c2.g - c1.g),
        c1.b + t / d * (c2.b - c1.b)⟩ : ColorQ))) ≠ [] := by
    simp [List.map_eq_nil, List.range_eq_nil]
    omega
  rw [linear_gradient, List.dropLast_cons_of_ne_nil htail]
  exact ⟨_, rfl⟩

/-- Sum of the bumped-count list of `expand_palette`. -/
theorem countsSum (m base rem : ℕ) :
    ((List.range m).map (fun i => if i < rem then base + 1 else base)).sum
      = m * base + min rem m := by
  induction m with
  | zero => simp
  | succ n ih =>
      rw [List.range_succ, List.map_append, List.sum_append]
      by_cases h : n < rem <;> simp [h, ih, Nat.succ_mul] <;> omega

/-- For a palette of at least two colors the count list is nonempty and its
head is the base count, bumped when the remainder is positive. -/
theorem extrapolationCounts_cons (n t' : ℕ) (hn : 2 ≤ n) :
    ∃ rest, extrapolationCounts n t' =
      (if 0 < t' % (n - 1) then t' / (n - 1) + 1 else t' / (n - 1)) :: rest := by
  unfold extrapolationCounts
  obtain ⟨m, hm⟩ : ∃ m, n - 1 = m + 1 := ⟨n - 2, by omega⟩
  rw [hm, List.range_succ_eq_map]
  exact ⟨_, rfl⟩

/-- C9: for every palette of `n >= 2` colors, `expand_palette` returns the
palette unchanged when the target is at most `n`, and otherwise returns
exactly `target` colors whose first color is the original first color and
whose last color is the original last color. -/
theorem expand_palette_spec (colors : List ColorQ) (t : ℕ) (h2 : 2 ≤ colors.length) :
    (t ≤ colors.length → expand_palette colors t = colors) ∧
    (colors.length < t →
      (expand_palette colors t).length = t ∧
      (expand_palette colors t).head? = colors.head? ∧
      (expand_palette colors t).getLast? = colors.getLast?) := by
  constructor
  · intro h
    simp [expand_palette, h]
  · intro h
    obtain ⟨c1, cs0, rfl⟩ : ∃ c1 cs0, colors = c1 :: cs0 := by
      cases colors with
      | nil => simp at h2
      | cons a l => exact ⟨a, l, rfl⟩
    obtain ⟨c2, cs, rfl⟩ : ∃ c2 cs, cs0 = c2 :: cs := by
      cases cs0 with
      | nil => simp at h2
      | cons a l => exact ⟨a, l, rfl⟩
    have hnot : ¬ t ≤ (c1 :: c2 :: cs).length := by omega
    have hexp : expand_palette (c1 :: c2 :: cs) t =
        expandSegments (c1 :: c2 :: cs)
          (extrapolationCounts (c1 :: c2 :: cs).length (t - 1))
          ++ [(c1 :: c2 :: cs).getLastD default] := by
      rw [expand_palette]
      exact if_neg hnot
    set n := (c1 :: c2 :: cs).length with hn
    have hn2 : 2 ≤ n := by simp [hn]
    have hrem : (t - 1) % (n - 1) < n - 1 := Nat.mod_lt _ (by omega)
    have hcnts_len : (extrapolationCounts n (t - 1)).length = n - 1 := by
      simp [extrapolationCounts]
    have hsum : (extrapolationCounts n (t - 1)).sum = t - 1 := by
      rw [extrapolationCounts, countsSum]
      have : min ((t - 1) % (n - 1)) (n - 1) = (t - 1) % (n - 1) := by omega
      rw [this, Nat.div_add_mod]
    refine ⟨?_, ?_, ?_⟩
    · rw [hexp, List.length_append,
        expandSegments_length _ c1 (c2 :: cs) (by simp [hn] at hcnts_len ⊢; omega), hsum]
      simp
      omega
    · obtain ⟨rest, hrest⟩ := extrapolationCounts_cons n (t - 1) hn2
      have hcnt0 : 1 ≤ (if 0 < (t - 1) % (n - 1) then (t - 1) / (n - 1) + 1 else (t - 1) / (n - 1)) := by
        have hbase : 1 ≤ (t - 1) / (n - 1) :=
          (Nat.one_le_div_iff (by omega)).mpr (by omega)
        split <;> omega
      obtain ⟨l, hl⟩ := expandSegments_head c1 c2 cs _ rest hcnt0
      rw [hexp, hrest, hl]
      rfl
    · rw [hexp, List.getLast?_concat]
      have : (c1 :: c2 :: cs).getLastD default = (c1 :: c2 :: cs).getLast (by simp) := by
        rw [List.getLastD_eq_getLast?, List.getLast?_eq_getLast _ (by simp)]
        rfl
      rw [this, List.getLast?_eq_getLast _ (by simp)]

/-- Witness for C9: expanding the two-color palette black-to-white to 4
colors. -/
theorem expand_palette_spec_witness :
    (expand_palette [⟨0,0,0⟩, ⟨1,1,1⟩] 4).length = 4 ∧
    (expand_palette [⟨0,0,0⟩, ⟨1,1,1⟩] 4).head? = some ⟨0,0,0⟩ ∧
    (expand_palette [⟨0,0,0⟩, ⟨1,1,1⟩] 4).getLast? = some ⟨1,1,1⟩ := by
  have h := (expand_palette_spec [⟨0,0,0⟩, ⟨1,1,1⟩] 4 (by decide)).2 (by decide)
  exact ⟨h.1, h.2.1.trans rfl, h.2.2.trans rfl⟩

/-- The precision computation is undefined (`int(-inf)` raises) exactly when
the two values coincide. -/
theorem axis_format_precision_none_iff (a b : ℚ) :
    axis_format_precision a b = none ↔ a = b := by
  by_cases h : |a - b| = 0
  · simp [axis_format_precision, h, sub_eq_zero.mp (abs_eq_zero.mp h)]
  · have : a ≠ b := fun hc => h (by rw [hc]; simp)
    simp [axis_format_precision, h, this]

/-- C10: `_axis_format_precision` is undefined iff `max_value = min_value`
(so the default tick-format step of `_set_numeric_axis_default_format`
requires the zero-clamped maximum and minimum to differ), and for distinct
values it returns `0,0.[` followed by `k` zeros and `]`, where
`k = |e| + 1` for the unique `e` with `10^e ≤ |max - min| < 10^(e+1)`,
i.e. `e = floor(log10 |max - min|)`. -/
theorem axis_format_precision_spec (maxv minv : ℚ) :
    (axis_format_precision maxv minv = none ↔ maxv = minv) ∧
    (set_numeric_axis_tick_format maxv minv = none ↔ max maxv 0 = min minv 0) ∧
    (maxv ≠ minv → ∀ e : ℤ,
      (10:ℚ)^e ≤ |maxv - minv| → |maxv - minv| < 10^(e+1) →
      axis_format_precision maxv minv = some ("0,0.[" ++ zeroString (e.natAbs + 1) ++ "]")) := by
  refine ⟨axis_format_precision_none_iff maxv minv, axis_format_precision_none_iff _ _, ?_⟩
  intro h e h1 h2
  have hd : (0:ℚ) < |maxv - minv| := abs_pos.mpr (sub_ne_zero.mpr h)
  have he : Int.log 10 |maxv - minv| = e := by
    have hle : e ≤ Int.log 10 |maxv - minv| := (Int.zpow_le_iff_le_log (by norm_num) hd).mp h1
    have hlt : Int.log 10 |maxv - minv| < e + 1 := (Int.lt_zpow_iff_log_lt (by norm_num) hd).mp h2
    omega
  unfold axis_format_precision
  rw [if_neg (by simpa using ne_of_gt hd), he]

/-- Witness for C10 at `max = 5`, `min = 0`: `e = 0`, one bracketed zero. -/
theorem axis_format_precision_spec_witness :
    axis_format_precision 5 0 = some ("0,0.[" ++ zeroString ((0:ℤ).natAbs + 1) ++ "]") :=
  (axis_format_precision_spec 5 0).2.2 (by norm_num) 0 (by norm_num) (by norm_num)
